import Mathlib

/-!
The task store of drone-go-selenium and its HTTP handlers.

A shallow embedding of `task/task.go` (the `TaskManager` over the `tasks`
table) and `server/server.go` (the five route handlers and `errorHandler`),
followed by the properties proved about them.

The SQL engine, `net/http`, `encoding/json`, `strconv` and `gorilla/mux` are
libraries outside the repository.  They are represented as follows.

* The database behind `TaskManager.db` is the content of the `tasks` table
  (rows in rowid order) together with its `sqlite_sequence` counter.  Every
  statement takes a `Fault`: `none` when the engine executes the statement,
  `some msg` when the engine or driver refuses it (I/O error, locked or closed
  database, exhausted rowid space, ...); a refused statement changes nothing.
* A `http.ResponseWriter` is the sequence of calls a handler makes on it.
* The request carries the route variables and the outcome of decoding its
  body as a JSON `Task`.
-/

set_option autoImplicit false

namespace task

/-- The Go struct `Task`. -/
structure Task where
  ID : Int
  Title : String
  Done : Bool
deriving DecidableEq, Repr

/-- The zero value `Task{}`. -/
def Task.zero : Task := { ID := 0, Title := "", Done := false }

/-- The two error causes of `strconv.NumError` that `ParseInt` reports. -/
inductive NumErrKind
  | invalid     -- strconv.ErrSyntax
  | outOfRange  -- strconv.ErrRange
deriving DecidableEq, Repr

/-- The text an error value yields from `Error()`.  The text of a
`*strconv.NumError` quotes its input with `strconv.Quote`; it is kept
symbolic. -/
inductive ErrText
  | lit (s : String)
  | numError (fn : String) (num : String) (kind : NumErrKind)
deriving DecidableEq, Repr

/-- A Go `error` value as `errorHandler` can tell them apart: the two wrapper
types of package `server`, each with the `Error()` text of the error it embeds
(`none` for an embedded nil error), and every other dynamic type with its own
`Error()` text. -/
inductive GoError
  | badRequest (inner : Option ErrText)
  | notFound (inner : Option ErrText)
  | other (text : ErrText)
deriving DecidableEq, Repr

/-- What the engine does with one statement: `none` executes it, `some msg`
refuses it with a driver error of that message. -/
abbrev Fault := Option String

/-- The error `database/sql` returns for a refused statement. -/
def driverError (msg : String) : GoError := .other (.lit msg)

/-- The sentinel `sql.ErrNoRows`. -/
def ErrNoRows : GoError := .other (.lit "sql: no rows in result set")

/-- The state reachable through `TaskManager.db`: the rows of table `tasks`
in rowid order and the `sqlite_sequence` counter that `AUTOINCREMENT`
maintains for the table (the largest rowid assigned so far). -/
structure TaskManager where
  rows : List Task
  seq : Int
deriving DecidableEq, Repr

/-- The database right after `NewTaskManager` created the table. -/
def TaskManager.fresh : TaskManager := { rows := [], seq := 0 }

/-- The rowid `INSERT ... VALUES (null, ...)` picks on an `AUTOINCREMENT`
table: one more than the larger of the counter and the largest rowid present. -/
def TaskManager.nextID (t : TaskManager) : Int :=
  t.rows.foldl (fun m r => max m r.ID) t.seq + 1

/-- Find: `SELECT * FROM tasks WHERE id = ?` scanned into a fresh `Task`. -/
def TaskManager.Find (t : TaskManager) (fault : Fault) (id : Int) : Task × Option GoError :=
  match fault with
  | some msg => (Task.zero, some (driverError msg))
  | none =>
    match t.rows.find? (fun r => r.ID == id) with
    | some r => ({ ID := r.ID, Title := r.Title, Done := r.Done }, none)
    | none => (Task.zero, some ErrNoRows)

/-- The loop of `List`: scan row after row, stop at the first scan error and
keep what was scanned before it. -/
def scanRows (scanFault : Nat → Fault) : Nat → List Task → List Task → List Task × Option GoError
  | _, [], acc => (acc, none)
  | i, r :: rest, acc =>
    match scanFault i with
    | some msg => (acc, some (driverError msg))
    | none => scanRows scanFault (i + 1) rest (acc ++ [{ ID := r.ID, Title := r.Title, Done := r.Done }])

/-- List: `SELECT * FROM tasks`; a nil slice (`none`) when the query itself
fails, otherwise the rows scanned. -/
def TaskManager.List (t : TaskManager) (queryFault : Fault) (scanFault : Nat → Fault) :
    Option (List Task) × Option GoError :=
  match queryFault with
  | some msg => (none, some (driverError msg))
  | none =>
    let res := scanRows scanFault 0 t.rows []
    (some res.1, res.2)

/-- Save: `INSERT INTO tasks VALUES (null, ?, ?)`, then `task.ID` is set
from `LastInsertId`.  Returns the database, the task as left behind the
pointer, and the error. -/
def TaskManager.Save (t : TaskManager) (fault : Fault) (task : Task) :
    TaskManager × Task × Option GoError :=
  match fault with
  | some msg => (t, task, some (driverError msg))
  | none =>
    let id := t.nextID
    ({ rows := t.rows ++ [{ ID := id, Title := task.Title, Done := task.Done }], seq := id },
     { ID := id, Title := task.Title, Done := task.Done }, none)

/-- Update: `UPDATE tasks SET title=?, done=? WHERE id=?`. -/
def TaskManager.Update (t : TaskManager) (fault : Fault) (task : Task) :
    TaskManager × Option GoError :=
  match fault with
  | some msg => (t, some (driverError msg))
  | none =>
    ({ rows := t.rows.map (fun r =>
         if r.ID == task.ID then { ID := r.ID, Title := task.Title, Done := task.Done } else r),
       seq := t.seq }, none)

/-- Delete: `DELETE FROM tasks WHERE id = ?`. -/
def TaskManager.Delete (t : TaskManager) (fault : Fault) (id : Int) :
    TaskManager × Option GoError :=
  match fault with
  | some msg => (t, some (driverError msg))
  | none => ({ rows := t.rows.filter (fun r => r.ID != id), seq := t.seq }, none)

/-- What the engine guarantees of the table: rowids are unique (primary key)
and none exceeds the counter, which is never negative. -/
def TaskManager.WF (t : TaskManager) : Prop :=
  0 ≤ t.seq ∧ (∀ r ∈ t.rows, r.ID ≤ t.seq) ∧ (t.rows.map (fun r => r.ID)).Nodup

/-- A write made through the `TaskManager`. -/
inductive Op
  | save (fault : Fault) (task : Task)
  | update (fault : Fault) (task : Task)
  | delete (fault : Fault) (id : Int)
deriving DecidableEq, Repr

/-- The database after one write. -/
def step (t : TaskManager) : Op → TaskManager
  | .save fault task => (t.Save fault task).1
  | .update fault task => (t.Update fault task).1
  | .delete fault id => (t.Delete fault id).1

/-- The database after a sequence of writes. -/
def run (t : TaskManager) (ops : List Op) : TaskManager :=
  ops.foldl step t

/-- Whether a write is an `Update` or `Delete` addressed to the given id. -/
def Op.touches (id : Int) : Op → Bool
  | .save _ _ => false
  | .update _ task => task.ID == id
  | .delete _ i => i == id

/-- The scan oracle under which no row fails to scan. -/
def noFault : Nat → Fault := fun _ => none

/-- Save the tasks one after another (the loop of `TestList`), collecting the
task each `Save` leaves behind and the error it returns. -/
def saveAll (t : TaskManager) : List Task → TaskManager × List (Task × Option GoError)
  | [] => (t, [])
  | task :: rest =>
    let r := t.Save none task
    let rs := saveAll r.1 rest
    (rs.1, (r.2.1, r.2.2) :: rs.2)

end task

namespace server

open task

/-- The status codes of `net/http` that the handlers use. -/
def StatusOK : Nat := 200

/-- The code `http.StatusBadRequest`. -/
def StatusBadRequest : Nat := 400

/-- The code `http.StatusNotFound`. -/
def StatusNotFound : Nat := 404

/-- The code `http.StatusInternalServerError`. -/
def StatusInternalServerError : Nat := 500

/-- A call a handler makes on its `http.ResponseWriter`. -/
inductive WriterCall
  | httpError (msg : ErrText) (code : Nat)   -- http.Error(w, msg, code)
  | encodeTask (t : Task)                    -- json.NewEncoder(w).Encode(t)
  | encodeTasks (all : Option (List Task))   -- json.NewEncoder(w).Encode(all)
deriving DecidableEq, Repr

/-- A line written with `log.Println`. -/
inductive LogEntry
  | taskIs (id : Int)     -- log.Println("Task is ", id)
  | error (e : GoError)   -- log.Println(err)
deriving DecidableEq, Repr

/-- A statement sent to the database. -/
inductive Stmt
  | selectAll
  | selectByID (id : Int)
  | insert (title : String) (done : Bool)
  | update (title : String) (done : Bool) (id : Int)
  | delete (id : Int)
deriving DecidableEq, Repr

/-- The parts of a `*http.Request` the handlers read: the route variables of
`mux.Vars(r)` and what decoding `r.Body` into a zero `Task` gives. -/
structure Request where
  vars : List (String × String)
  body : Except ErrText Task

/-- Everything a handler of type `func(w, r) error` does: the error it
returns, its calls on `w`, its log lines, the statements it sent, and the
global `tasks` afterwards. -/
structure Result where
  err : Option GoError
  calls : List WriterCall
  logs : List LogEntry
  sql : List Stmt
  tasks : TaskManager
deriving DecidableEq, Repr

/-- A function `func(w http.ResponseWriter, r *http.Request) error`, run
against the global `tasks`. -/
abbrev HandlerFunc := Request → TaskManager → Result

/-- Everything a `http.HandlerFunc` does; `panicked` when it did not return. -/
structure Served where
  calls : List WriterCall
  logs : List LogEntry
  sql : List Stmt
  tasks : TaskManager
  panicked : Bool
deriving DecidableEq, Repr

/-- The status line `net/http` sends for a sequence of calls on the writer:
the code of the first call that starts the response, 200 when it is a write of
the body or when nothing was written. -/
def statusOf : List WriterCall → Nat
  | [] => StatusOK
  | .httpError _ code :: _ => code
  | .encodeTask _ :: _ => StatusOK
  | .encodeTasks _ :: _ => StatusOK

/-- The text of `err.Error()`; `none` when the call panics on an embedded nil
error. -/
def errorText : GoError → Option ErrText
  | .badRequest inner => inner
  | .notFound inner => inner
  | .other text => some text

/-- The wrapper `badRequest{err}`. -/
def wrapBadRequest (err : GoError) : GoError := .badRequest (errorText err)

/-- The handler `errorHandler(f)`. -/
def errorHandler (f : HandlerFunc) (r : Request) (tasks : TaskManager) : Served :=
  let res := f r tasks
  match res.err with
  | none =>
    { calls := res.calls, logs := res.logs, sql := res.sql, tasks := res.tasks, panicked := false }
  | some (.badRequest inner) =>
    match inner with
    | some msg =>
      { calls := res.calls ++ [.httpError msg StatusBadRequest], logs := res.logs,
        sql := res.sql, tasks := res.tasks, panicked := false }
    | none =>
      { calls := res.calls, logs := res.logs, sql := res.sql, tasks := res.tasks, panicked := true }
  | some (.notFound _) =>
    { calls := res.calls ++ [.httpError (.lit "task not found") StatusNotFound], logs := res.logs,
      sql := res.sql, tasks := res.tasks, panicked := false }
  | some (.other text) =>
    { calls := res.calls ++ [.httpError (.lit "oops") StatusInternalServerError],
      logs := res.logs ++ [.error (.other text)],
      sql := res.sql, tasks := res.tasks, panicked := false }

/-- The digit loop of `strconv.ParseUint(s, 10, 64)`: the value so far and the
rest of the input. -/
def parseUintLoop : List Char → Nat → Nat × Option NumErrKind
  | [], n => (n, none)
  | c :: cs, n =>
    if c.isDigit then
      if n ≥ (2 ^ 64 - 1) / 10 + 1 then (2 ^ 64 - 1, some .outOfRange)
      else if n * 10 + (c.toNat - 48) > 2 ^ 64 - 1 then (2 ^ 64 - 1, some .outOfRange)
      else parseUintLoop cs (n * 10 + (c.toNat - 48))
    else (0, some .invalid)

/-- The call `strconv.ParseUint(s, 10, 64)`. -/
def ParseUint (s : List Char) : Nat × Option NumErrKind :=
  match s with
  | [] => (0, some .invalid)
  | _ => parseUintLoop s 0

/-- The rest of `strconv.ParseInt` once `ParseUint` has returned `u` for the
digits after the sign: a syntax error is passed on, then the magnitude is
checked against the 64-bit cutoff and negated under a minus sign. -/
def finishInt (txt : String) (neg : Bool) (u : Nat × Option NumErrKind) : Int × Option GoError :=
  if u.2 == some .invalid then (0, some (.other (.numError "ParseInt" txt .invalid)))
  else if !neg && u.1 ≥ 2 ^ 63 then
    (2 ^ 63 - 1, some (.other (.numError "ParseInt" txt .outOfRange)))
  else if neg && u.1 > 2 ^ 63 then
    (-(2 ^ 63), some (.other (.numError "ParseInt" txt .outOfRange)))
  else (if neg then -(u.1 : Int) else (u.1 : Int), none)

/-- The call `strconv.ParseInt(txt, 10, 0)` where `int` has 64 bits. -/
def ParseInt (txt : String) : Int × Option GoError :=
  match txt.toList with
  | [] => (0, some (.other (.numError "ParseInt" txt .invalid)))
  | c :: cs =>
    finishInt txt (c == '-') (ParseUint (if c == '+' then cs else if c == '-' then cs else c :: cs))

/-- The number a run of decimal digits denotes, continuing from `n`. -/
def digitsFrom (n : Nat) (cs : List Char) : Nat :=
  cs.foldl (fun m c => m * 10 + (c.toNat - 48)) n

/-- The 64-bit integer that a sign and a run of characters spell: there is at
least one character, all are decimal digits, and the value lies between
`-2^63` and `2^63 - 1`. -/
def decimalValue (neg : Bool) (ds : List Char) : Option Int :=
  if ds ≠ [] ∧ ds.all Char.isDigit = true then
    if neg then
      if digitsFrom 0 ds ≤ 2 ^ 63 then some (-(digitsFrom 0 ds : Int)) else none
    else
      if digitsFrom 0 ds < 2 ^ 63 then some (digitsFrom 0 ds : Int) else none
  else none

/-- The integers written in base 10 that fit in 64 bits, as a path segment
spells them: an optional sign, then one or more decimal digits.  This is the
reading of "a valid integer" against which `ParseInt` is compared. -/
def decimalInt64 (txt : String) : Option Int :=
  match txt.toList with
  | [] => none
  | c :: cs => decimalValue (c == '-') (if c == '+' || c == '-' then cs else c :: cs)

/-- The function `parseID`. -/
def parseID (r : Request) : Int × Option GoError :=
  match r.vars.lookup "id" with
  | none => (0, some (.other (.lit "task id not found")))
  | some txt => ParseInt txt

/-- The handler `ListTasks`. -/
def ListTasks (queryFault : Fault) (scanFault : Nat → Fault) : HandlerFunc := fun _ tasks =>
  let all := (tasks.List queryFault scanFault).1
  { err := none, calls := [.encodeTasks all], logs := [], sql := [.selectAll], tasks := tasks }

/-- The handler `NewTask`. -/
def NewTask (fault : Fault) : HandlerFunc := fun r tasks =>
  match r.body with
  | .error e =>
    { err := some (wrapBadRequest (.other e)), calls := [], logs := [], sql := [], tasks := tasks }
  | .ok task =>
    let saved := tasks.Save fault task
    { err := saved.2.2, calls := [], logs := [], sql := [.insert task.Title task.Done],
      tasks := saved.1 }

/-- The handler `GetTask`. -/
def GetTask (fault : Fault) : HandlerFunc := fun r tasks =>
  let p := parseID r
  match p.2 with
  | some err =>
    { err := some (wrapBadRequest err), calls := [], logs := [.taskIs p.1], sql := [],
      tasks := tasks }
  | none =>
    let found := tasks.Find fault p.1
    match found.2 with
    | some _ =>
      { err := some (.notFound none), calls := [], logs := [.taskIs p.1],
        sql := [.selectByID p.1], tasks := tasks }
    | none =>
      { err := none, calls := [.encodeTask found.1], logs := [.taskIs p.1],
        sql := [.selectByID p.1], tasks := tasks }

/-- The handler `DeleteTask`. -/
def DeleteTask (fault : Fault) : HandlerFunc := fun r tasks =>
  let p := parseID r
  match p.2 with
  | some err =>
    { err := some (wrapBadRequest err), calls := [], logs := [], sql := [], tasks := tasks }
  | none =>
    let deleted := tasks.Delete fault p.1
    { err := deleted.2, calls := [], logs := [], sql := [.delete p.1], tasks := deleted.1 }

/-- The handler `UpdateTask`. -/
def UpdateTask (findFault updateFault : Fault) : HandlerFunc := fun r tasks =>
  let p := parseID r
  match p.2 with
  | some err =>
    { err := some (wrapBadRequest err), calls := [], logs := [], sql := [], tasks := tasks }
  | none =>
    match r.body with
    | .error e =>
      { err := some (wrapBadRequest (.other e)), calls := [], logs := [], sql := [],
        tasks := tasks }
    | .ok t =>
      if t.ID != p.1 then
        { err := some (wrapBadRequest (.other (.lit "inconsistent task IDs"))), calls := [],
          logs := [], sql := [], tasks := tasks }
      else
        match (tasks.Find findFault p.1).2 with
        | some _ =>
          { err := some (.notFound none), calls := [], logs := [], sql := [.selectByID p.1],
            tasks := tasks }
        | none =>
          let updated := tasks.Update updateFault t
          { err := updated.2, calls := [], logs := [],
            sql := [.selectByID p.1, .update t.Title t.Done t.ID], tasks := updated.1 }

end server

open task server

/-! ### The rowid counter -/

theorem foldl_max_ge_init (l : List Task) (a : Int) :
    a ≤ l.foldl (fun m r => max m r.ID) a := by
  induction l generalizing a with
  | nil => simp
  | cons x xs ih =>
    simp only [List.foldl_cons]
    exact le_trans (le_max_left a x.ID) (ih _)

theorem foldl_max_ge_mem (l : List Task) (a : Int) (r : Task) (hr : r ∈ l) :
    r.ID ≤ l.foldl (fun m r => max m r.ID) a := by
  induction l generalizing a with
  | nil => simp at hr
  | cons x xs ih =>
    simp only [List.foldl_cons]
    rcases List.mem_cons.mp hr with h | h
    · subst h
      exact le_trans (le_max_right a r.ID) (foldl_max_ge_init xs _)
    · exact ih _ h

theorem foldl_max_le (l : List Task) (a b : Int) (ha : a ≤ b) (hl : ∀ r ∈ l, r.ID ≤ b) :
    l.foldl (fun m r => max m r.ID) a ≤ b := by
  induction l generalizing a with
  | nil => simpa using ha
  | cons x xs ih =>
    simp only [List.foldl_cons]
    apply ih
    · exact max_le ha (hl x (List.mem_cons_self _ _))
    · intro r hr
      exact hl r (List.mem_cons_of_mem _ hr)

theorem seq_lt_nextID (t : TaskManager) : t.seq < t.nextID := by
  unfold TaskManager.nextID
  have := foldl_max_ge_init t.rows t.seq
  omega

theorem id_lt_nextID (t : TaskManager) (r : Task) (hr : r ∈ t.rows) : r.ID < t.nextID := by
  unfold TaskManager.nextID
  have := foldl_max_ge_mem t.rows t.seq r hr
  omega

theorem nextID_of_WF (t : TaskManager) (h : t.WF) : t.nextID = t.seq + 1 := by
  unfold TaskManager.nextID
  have h1 := foldl_max_ge_init t.rows t.seq
  have h2 := foldl_max_le t.rows t.seq t.seq (le_refl _) h.2.1
  omega

/-! ### The table invariant -/

theorem WF_fresh : TaskManager.fresh.WF := by
  simp [TaskManager.WF, TaskManager.fresh]

theorem WF_Save (t : TaskManager) (fault : Fault) (task : Task) (h : t.WF) :
    (t.Save fault task).1.WF := by
  cases fault with
  | some msg => simpa [TaskManager.Save] using h
  | none =>
    have hn := nextID_of_WF t h
    obtain ⟨h0, hle, hnd⟩ := h
    refine ⟨?_, ?_, ?_⟩
    · simp only [TaskManager.Save]; omega
    · intro r hr
      simp only [TaskManager.Save, List.mem_append, List.mem_singleton] at hr ⊢
      rcases hr with hr | hr
      · have := hle r hr; omega
      · subst hr; simp
    · simp only [TaskManager.Save, List.map_append, List.map_cons, List.map_nil]
      rw [List.nodup_append]
      refine ⟨hnd, by simp, ?_⟩
      intro a ha hb
      simp only [List.mem_singleton] at hb
      obtain ⟨r, hr, rfl⟩ := List.mem_map.mp ha
      have := hle r hr
      omega

theorem map_ID_Update (l : List Task) (task : Task) :
    (l.map (fun r =>
      if r.ID == task.ID then ({ ID := r.ID, Title := task.Title, Done := task.Done } : Task)
      else r)).map (fun r => r.ID) = l.map (fun r => r.ID) := by
  induction l with
  | nil => rfl
  | cons x xs ih =>
    simp only [List.map_cons, ih]
    by_cases hx : (x.ID == task.ID) = true <;> simp [hx]

theorem WF_Update (t : TaskManager) (fault : Fault) (task : Task) (h : t.WF) :
    (t.Update fault task).1.WF := by
  cases fault with
  | some msg => simpa [TaskManager.Update] using h
  | none =>
    obtain ⟨h0, hle, hnd⟩ := h
    refine ⟨h0, ?_, ?_⟩
    · intro r hr
      simp only [TaskManager.Update] at hr ⊢
      obtain ⟨x, hx, rfl⟩ := List.mem_map.mp hr
      by_cases hc : (x.ID == task.ID) = true
      · simpa [hc] using hle x hx
      · simpa [hc] using hle x hx
    · simp only [TaskManager.Update]
      rw [map_ID_Update]
      exact hnd

theorem WF_Delete (t : TaskManager) (fault : Fault) (id : Int) (h : t.WF) :
    (t.Delete fault id).1.WF := by
  cases fault with
  | some msg => simpa [TaskManager.Delete] using h
  | none =>
    obtain ⟨h0, hle, hnd⟩ := h
    refine ⟨h0, ?_, ?_⟩
    · intro r hr
      simp only [TaskManager.Delete] at hr
      exact hle r (List.mem_of_mem_filter hr)
    · simp only [TaskManager.Delete]
      exact hnd.sublist ((List.filter_sublist _).map _)

theorem WF_step (t : TaskManager) (op : Op) (h : t.WF) : (step t op).WF := by
  cases op with
  | save fault task => exact WF_Save t fault task h
  | update fault task => exact WF_Update t fault task h
  | delete fault id => exact WF_Delete t fault id h

theorem WF_run (t : TaskManager) (ops : List Op) (h : t.WF) : (run t ops).WF := by
  induction ops generalizing t with
  | nil => exact h
  | cons op rest ih => exact ih (step t op) (WF_step t op h)

theorem seq_le_step (t : TaskManager) (op : Op) : t.seq ≤ (step t op).seq := by
  cases op with
  | save fault task =>
    cases fault with
    | some msg => simp [step, TaskManager.Save]
    | none =>
      have := seq_lt_nextID t
      simp only [step, TaskManager.Save]
      omega
  | update fault task => cases fault <;> simp [step, TaskManager.Update]
  | delete fault id => cases fault <;> simp [step, TaskManager.Delete]

theorem seq_le_run (t : TaskManager) (ops : List Op) : t.seq ≤ (run t ops).seq := by
  induction ops generalizing t with
  | nil => exact le_refl _
  | cons op rest ih => exact le_trans (seq_le_step t op) (ih (step t op))

theorem run_append (t : TaskManager) (xs ys : List Op) :
    run t (xs ++ ys) = run (run t xs) ys := by
  simp [run, List.foldl_append]

/-- Every rowid present at any earlier point of a history is at most the
counter at its end. -/
theorem past_ids_le_seq (t0 : TaskManager) (ops : List Op) (h : t0.WF) (k : Nat)
    (r : Task) (hr : r ∈ (run t0 (ops.take k)).rows) : r.ID ≤ (run t0 ops).seq := by
  have hsplit : run t0 ops = run (run t0 (ops.take k)) (ops.drop k) := by
    rw [← run_append, List.take_append_drop]
  have hwf := WF_run t0 (ops.take k) h
  have h1 := hwf.2.1 r hr
  have h2 := seq_le_run (run t0 (ops.take k)) (ops.drop k)
  rw [hsplit]
  omega

/-! ### Listing -/

theorem scanRows_noFault (rows acc : List Task) (i : Nat) :
    scanRows noFault i rows acc = (acc ++ rows, none) := by
  induction rows generalizing acc i with
  | nil => simp [scanRows]
  | cons x xs ih =>
    simp only [scanRows, noFault]
    have := ih (acc ++ [x]) (i + 1)
    simp only [noFault] at this
    rw [this]
    simp

theorem List_noFault (t : TaskManager) : t.List none noFault = (some t.rows, none) := by
  simp [TaskManager.List, scanRows_noFault]

/-! ### Save -/

/-- C2. In a table reached from a well-formed one by any writes, `Save` of a
task with a non-empty title, when the engine executes the statement, returns
no error and leaves in the task a positive ID that no row had at any earlier
point of the history; the task keeps its title and flag, and `List`
afterwards is `List` before followed by exactly that task, so it has one
element when the table was empty. -/
theorem Save_assigns_fresh_ID (t0 : TaskManager) (ops : List Op) (task : Task)
    (hwf : t0.WF) (htitle : task.Title ≠ "") :
    ((run t0 ops).Save none task).2.2 = none ∧
    0 < ((run t0 ops).Save none task).2.1.ID ∧
    ((run t0 ops).Save none task).2.1.Title = task.Title ∧
    ((run t0 ops).Save none task).2.1.Done = task.Done ∧
    (∀ k, ∀ r ∈ (run t0 (ops.take k)).rows, r.ID ≠ ((run t0 ops).Save none task).2.1.ID) ∧
    (run t0 ops).List none noFault = (some (run t0 ops).rows, none) ∧
    ((run t0 ops).Save none task).1.List none noFault =
      (some ((run t0 ops).rows ++ [((run t0 ops).Save none task).2.1]), none) ∧
    ((run t0 ops).rows = [] →
      ((run t0 ops).Save none task).1.List none noFault =
        (some [((run t0 ops).Save none task).2.1], none)) := by
  have _ := htitle
  have hrun := WF_run t0 ops hwf
  have hnext := nextID_of_WF _ hrun
  refine ⟨rfl, ?_, rfl, rfl, ?_, List_noFault _, ?_, ?_⟩
  · simp only [TaskManager.Save]
    have := hrun.1
    omega
  · intro k r hr
    have := past_ids_le_seq t0 ops hwf k r hr
    simp only [TaskManager.Save]
    omega
  · rw [List_noFault]
    simp [TaskManager.Save]
  · intro hempty
    rw [List_noFault]
    simp [TaskManager.Save, hempty]

theorem Save_assigns_fresh_ID_witness :
    TaskManager.fresh.WF ∧ ("download drone" : String) ≠ "" ∧
    ((run TaskManager.fresh [.save none { ID := 0, Title := "profit", Done := true },
        .delete none 1]).Save none { ID := 0, Title := "download drone", Done := false }).2.2
      = none ∧
    0 < ((run TaskManager.fresh [.save none { ID := 0, Title := "profit", Done := true },
        .delete none 1]).Save none { ID := 0, Title := "download drone", Done := false }).2.1.ID ∧
    ((run TaskManager.fresh [.save none { ID := 0, Title := "profit", Done := true },
        .delete none 1]).Save none { ID := 0, Title := "download drone", Done := false }).2.1.ID
      = 2 :=
  ⟨WF_fresh, by decide,
    (Save_assigns_fresh_ID TaskManager.fresh
      [.save none { ID := 0, Title := "profit", Done := true }, .delete none 1]
      { ID := 0, Title := "download drone", Done := false } WF_fresh (by decide)).1,
    (Save_assigns_fresh_ID TaskManager.fresh
      [.save none { ID := 0, Title := "profit", Done := true }, .delete none 1]
      { ID := 0, Title := "download drone", Done := false } WF_fresh (by decide)).2.1,
    by decide⟩

/-! ### Find -/

theorem find_append_of_some (l l2 : List Task) (id : Int) (x : Task)
    (h : l.find? (fun r => r.ID == id) = some x) :
    (l ++ l2).find? (fun r => r.ID == id) = some x := by
  simp [List.find?_append, h]

theorem find_cons_hit (y : Task) (ys : List Task) (id : Int) (hy : y.ID = id) :
    (y :: ys).find? (fun r => r.ID == id) = some y := by
  simp [List.find?_cons, hy]

theorem find_cons_miss (y : Task) (ys : List Task) (id : Int) (hy : y.ID ≠ id) :
    (y :: ys).find? (fun r => r.ID == id) = ys.find? (fun r => r.ID == id) := by
  simp [List.find?_cons, hy]

theorem find_map_Update (l : List Task) (id : Int) (x task : Task) (hne : task.ID ≠ id)
    (h : l.find? (fun r => r.ID == id) = some x) :
    (l.map (fun r =>
      if r.ID == task.ID then ({ ID := r.ID, Title := task.Title, Done := task.Done } : Task)
      else r)).find? (fun r => r.ID == id) = some x := by
  induction l with
  | nil => simp at h
  | cons y ys ih =>
    by_cases hy : y.ID = id
    · rw [find_cons_hit y ys id hy] at h
      have hyt : ¬ (y.ID == task.ID) = true := by
        intro hc
        exact hne ((eq_of_beq hc) ▸ hy)
      rw [List.map_cons, if_neg hyt, find_cons_hit y _ id hy]
      exact h
    · rw [find_cons_miss y ys id hy] at h
      rw [List.map_cons]
      by_cases hyt : (y.ID == task.ID) = true
      · rw [if_pos hyt, find_cons_miss _ _ id (by simpa using hy)]
        exact ih h
      · rw [if_neg hyt, find_cons_miss y _ id hy]
        exact ih h

theorem filter_cons_keep (y : Task) (ys : List Task) (d : Int) (hy : y.ID ≠ d) :
    (y :: ys).filter (fun r => r.ID != d) = y :: ys.filter (fun r => r.ID != d) := by
  simp [List.filter_cons, hy]

theorem filter_cons_drop (y : Task) (ys : List Task) (d : Int) (hy : y.ID = d) :
    (y :: ys).filter (fun r => r.ID != d) = ys.filter (fun r => r.ID != d) := by
  simp [List.filter_cons, hy]

theorem find_filter_Delete (l : List Task) (id d : Int) (x : Task) (hne : d ≠ id)
    (h : l.find? (fun r => r.ID == id) = some x) :
    (l.filter (fun r => r.ID != d)).find? (fun r => r.ID == id) = some x := by
  induction l with
  | nil => simp at h
  | cons y ys ih =>
    by_cases hy : y.ID = id
    · rw [find_cons_hit y ys id hy] at h
      have hyd : y.ID ≠ d := by
        intro hc
        exact hne (hc ▸ hy)
      rw [filter_cons_keep y ys d hyd, find_cons_hit y _ id hy]
      exact h
    · rw [find_cons_miss y ys id hy] at h
      by_cases hyd : y.ID = d
      · rw [filter_cons_drop y ys d hyd]
        exact ih h
      · rw [filter_cons_keep y ys d hyd, find_cons_miss y _ id hy]
        exact ih h

theorem find_step (t : TaskManager) (op : Op) (id : Int) (x : Task)
    (hop : op.touches id = false)
    (h : t.rows.find? (fun r => r.ID == id) = some x) :
    (step t op).rows.find? (fun r => r.ID == id) = some x := by
  cases op with
  | save fault task =>
    cases fault with
    | some msg => simpa [step, TaskManager.Save] using h
    | none =>
      simp only [step, TaskManager.Save]
      exact find_append_of_some _ _ id x h
  | update fault task =>
    cases fault with
    | some msg => simpa [step, TaskManager.Update] using h
    | none =>
      simp only [step, TaskManager.Update]
      apply find_map_Update _ _ _ _ _ h
      simpa [Op.touches] using hop
  | delete fault d =>
    cases fault with
    | some msg => simpa [step, TaskManager.Delete] using h
    | none =>
      simp only [step, TaskManager.Delete]
      apply find_filter_Delete _ _ _ _ _ h
      simpa [Op.touches] using hop

theorem find_run (t : TaskManager) (ops : List Op) (id : Int) (x : Task)
    (hops : ∀ op ∈ ops, op.touches id = false)
    (h : t.rows.find? (fun r => r.ID == id) = some x) :
    (run t ops).rows.find? (fun r => r.ID == id) = some x := by
  induction ops generalizing t with
  | nil => exact h
  | cons op rest ih =>
    apply ih (step t op)
    · intro o ho
      exact hops o (List.mem_cons_of_mem _ ho)
    · exact find_step t op id x (hops op (List.mem_cons_self _ _)) h

theorem find_none_of_absent (l : List Task) (id : Int) (h : ∀ r ∈ l, r.ID ≠ id) :
    l.find? (fun r => r.ID == id) = none := by
  rw [List.find?_eq_none]
  intro r hr
  simpa using h r hr

theorem find_Save (t : TaskManager) (task : Task) :
    (t.Save none task).1.rows.find? (fun r => r.ID == (t.Save none task).2.1.ID)
      = some (t.Save none task).2.1 := by
  have habs : t.rows.find? (fun r => r.ID == t.nextID) = none := by
    apply find_none_of_absent
    intro r hr
    have := id_lt_nextID t r hr
    omega
  simp [TaskManager.Save, List.find?_append, habs]

/-- C3. A task left by `Save` is what `Find` of its ID returns, without
error, after any writes that neither update nor delete that ID: the same ID,
title and flag.  And `Find` of an id that no row has returns an error
(`sql.ErrNoRows` when the engine executes the query). -/
theorem Find_returns_saved (t0 : TaskManager) (task : Task) (ops : List Op)
    (hops : ∀ op ∈ ops, op.touches (t0.Save none task).2.1.ID = false) :
    (run (t0.Save none task).1 ops).Find none (t0.Save none task).2.1.ID
      = ((t0.Save none task).2.1, none) ∧
    (t0.Save none task).2.1.Title = task.Title ∧
    (t0.Save none task).2.1.Done = task.Done ∧
    (∀ (t : TaskManager) (fault : Fault) (id : Int), (∀ r ∈ t.rows, r.ID ≠ id) →
      (t.Find fault id).2 ≠ none ∧ t.Find none id = (Task.zero, some ErrNoRows)) := by
  refine ⟨?_, rfl, rfl, ?_⟩
  · have h := find_run _ ops _ _ hops (find_Save t0 task)
    simp only [TaskManager.Find, h]
  · intro t fault id habs
    have h := find_none_of_absent t.rows id habs
    cases fault with
    | some msg => simp [TaskManager.Find, h]
    | none => simp [TaskManager.Find, h, ErrNoRows]

theorem Find_returns_saved_witness :
    (∀ op ∈ [Op.save none { ID := 0, Title := "profit", Done := false },
        Op.update none { ID := 1, Title := "changed", Done := true }, Op.delete none 1],
      op.touches ((TaskManager.mk [{ ID := 1, Title := "a", Done := false }] 1).Save none
        { ID := 0, Title := "download drone", Done := true }).2.1.ID = false) ∧
    (run ((TaskManager.mk [{ ID := 1, Title := "a", Done := false }] 1).Save none
        { ID := 0, Title := "download drone", Done := true }).1
      [Op.save none { ID := 0, Title := "profit", Done := false },
        Op.update none { ID := 1, Title := "changed", Done := true }, Op.delete none 1]).Find none
      ((TaskManager.mk [{ ID := 1, Title := "a", Done := false }] 1).Save none
        { ID := 0, Title := "download drone", Done := true }).2.1.ID
      = (((TaskManager.mk [{ ID := 1, Title := "a", Done := false }] 1).Save none
        { ID := 0, Title := "download drone", Done := true }).2.1, none) :=
  ⟨by decide,
    (Find_returns_saved (TaskManager.mk [{ ID := 1, Title := "a", Done := false }] 1)
      { ID := 0, Title := "download drone", Done := true }
      [Op.save none { ID := 0, Title := "profit", Done := false },
        Op.update none { ID := 1, Title := "changed", Done := true }, Op.delete none 1]
      (by decide)).1⟩

/-! ### Delete -/

theorem filter_absent (l : List Task) (id : Int) (h : ∀ r ∈ l, r.ID ≠ id) :
    l.filter (fun r => r.ID != id) = l := by
  rw [List.filter_eq_self]
  intro r hr
  simpa using h r hr

theorem length_filter_present (l : List Task) (id : Int)
    (hnd : (l.map (fun r => r.ID)).Nodup) (hex : ∃ r ∈ l, r.ID = id) :
    (l.filter (fun r => r.ID != id)).length + 1 = l.length := by
  induction l with
  | nil => simp at hex
  | cons y ys ih =>
    rw [List.map_cons, List.nodup_cons] at hnd
    by_cases hy : y.ID = id
    · rw [filter_cons_drop y ys id hy]
      have habs : ∀ r ∈ ys, r.ID ≠ id := by
        intro r hr hc
        apply hnd.1
        rw [hy, ← hc]
        exact List.mem_map_of_mem _ hr
      rw [filter_absent ys id habs]
      simp
    · rw [filter_cons_keep y ys id hy]
      obtain ⟨r, hr, hrid⟩ := hex
      rcases List.mem_cons.mp hr with h | h
      · exact absurd (h ▸ hrid) hy
      · have := ih hnd.2 ⟨r, h, hrid⟩
        simp only [List.length_cons]
        omega

/-- C4. `Delete`, when the engine executes the statement, returns no error
and leaves exactly the rows whose ID differs from the given id, in their
order and unchanged, with the counter untouched: if a row had that id (and
rowids are unique) exactly one row is gone, if none had it the table is
unchanged, and a second `Delete` of the same id changes nothing more. -/
theorem Delete_removes_row (t : TaskManager) (id : Int) :
    (t.Delete none id).2 = none ∧
    (t.Delete none id).1.List none noFault
      = (some (t.rows.filter (fun r => r.ID != id)), none) ∧
    (t.Delete none id).1.seq = t.seq ∧
    (∀ r, r ∈ (t.Delete none id).1.rows ↔ r ∈ t.rows ∧ r.ID ≠ id) ∧
    (t.Delete none id).1.rows.Sublist t.rows ∧
    (t.WF → (∃ r ∈ t.rows, r.ID = id) →
      (t.Delete none id).1.rows.length + 1 = t.rows.length) ∧
    ((∀ r ∈ t.rows, r.ID ≠ id) → (t.Delete none id).1 = t) ∧
    (t.Delete none id).1.Delete none id = t.Delete none id := by
  refine ⟨rfl, ?_, rfl, ?_, ?_, ?_, ?_, ?_⟩
  · rw [List_noFault]
    rfl
  · intro r
    simp [TaskManager.Delete]
  · exact List.filter_sublist _
  · intro hwf hex
    exact length_filter_present t.rows id hwf.2.2 hex
  · intro habs
    simp only [TaskManager.Delete]
    rw [filter_absent t.rows id habs]
  · simp [TaskManager.Delete, List.filter_filter]

theorem Delete_removes_row_witness :
    (TaskManager.mk [{ ID := 1, Title := "a", Done := false },
      { ID := 3, Title := "b", Done := true }] 3).WF ∧
    (∃ r ∈ (TaskManager.mk [{ ID := 1, Title := "a", Done := false },
      { ID := 3, Title := "b", Done := true }] 3).rows, r.ID = 1) ∧
    ((TaskManager.mk [{ ID := 1, Title := "a", Done := false },
      { ID := 3, Title := "b", Done := true }] 3).Delete none 1).1.rows.length + 1
      = (TaskManager.mk [{ ID := 1, Title := "a", Done := false },
      { ID := 3, Title := "b", Done := true }] 3).rows.length ∧
    (∀ r ∈ (TaskManager.mk [{ ID := 1, Title := "a", Done := false },
      { ID := 3, Title := "b", Done := true }] 3).rows, r.ID ≠ 2) ∧
    ((TaskManager.mk [{ ID := 1, Title := "a", Done := false },
      { ID := 3, Title := "b", Done := true }] 3).Delete none 2).1
      = TaskManager.mk [{ ID := 1, Title := "a", Done := false },
      { ID := 3, Title := "b", Done := true }] 3 :=
  ⟨by simp [TaskManager.WF], by simp,
    (Delete_removes_row (TaskManager.mk [{ ID := 1, Title := "a", Done := false },
      { ID := 3, Title := "b", Done := true }] 3) 1).2.2.2.2.2.1
      (by simp [TaskManager.WF]) (by simp),
    by simp,
    (Delete_removes_row (TaskManager.mk [{ ID := 1, Title := "a", Done := false },
      { ID := 3, Title := "b", Done := true }] 3) 2).2.2.2.2.2.2.1 (by simp)⟩

/-! ### Saving a sequence of tasks -/

theorem nextID_Save (t : TaskManager) (task : Task) :
    (t.Save none task).1.nextID = t.nextID + 1 := by
  have h1 := foldl_max_ge_init (t.Save none task).1.rows (t.Save none task).1.seq
  have h2 := foldl_max_le (t.Save none task).1.rows (t.Save none task).1.seq t.nextID
    (le_refl _) (by
      intro r hr
      simp only [TaskManager.Save, List.mem_append, List.mem_singleton] at hr
      rcases hr with hr | hr
      · exact le_of_lt (id_lt_nextID t r hr)
      · subst hr
        exact le_refl _)
  have h3 : (t.Save none task).1.seq = t.nextID := rfl
  have h4 : (t.Save none task).1.nextID
      = (t.Save none task).1.rows.foldl (fun m r => max m r.ID) (t.Save none task).1.seq + 1 := rfl
  omega

theorem saveAll_spec (t : TaskManager) (ts : List Task) :
    (saveAll t ts).1.rows = t.rows ++ (saveAll t ts).2.map (fun p => p.1) ∧
    (saveAll t ts).2.length = ts.length ∧
    (∀ p ∈ (saveAll t ts).2, p.2 = none ∧ t.nextID ≤ p.1.ID) ∧
    ((saveAll t ts).2.map (fun p => p.1.ID)).Nodup ∧
    (saveAll t ts).2.map (fun p => (p.1.Title, p.1.Done))
      = ts.map (fun x => (x.Title, x.Done)) := by
  induction ts generalizing t with
  | nil => simp [saveAll]
  | cons x xs ih =>
    obtain ⟨h1, h2, h3, h4, h5⟩ := ih (t.Save none x).1
    have hn := nextID_Save t x
    refine ⟨?_, ?_, ?_, ?_, ?_⟩
    · simp only [saveAll, h1, List.map_cons]
      simp [TaskManager.Save]
    · simp only [saveAll, List.length_cons, h2]
    · intro p hp
      simp only [saveAll, List.mem_cons] at hp
      rcases hp with hp | hp
      · subst hp
        exact ⟨rfl, le_refl _⟩
      · have := h3 p hp
        exact ⟨this.1, by omega⟩
    · simp only [saveAll, List.map_cons]
      rw [List.nodup_cons]
      refine ⟨?_, h4⟩
      intro hmem
      obtain ⟨p, hp, hpid⟩ := List.mem_map.mp hmem
      have := (h3 p hp).2
      have hid : (t.Save none x).2.1.ID = t.nextID := rfl
      omega
    · simp only [saveAll, List.map_cons, h5]
      rfl

/-- C9. Saving any sequence of tasks one after another into a table without
rows, the engine executing every statement: each `Save` returns no error, the
IDs left in the tasks are pairwise distinct, and `List` afterwards returns
without error exactly those tasks, as many as were saved, each with the title
and flag it was saved with. -/
theorem saveAll_then_List (t : TaskManager) (ts : List Task) (hempty : t.rows = []) :
    (∀ p ∈ (saveAll t ts).2, p.2 = none) ∧
    ((saveAll t ts).2.map (fun p => p.1.ID)).Nodup ∧
    (saveAll t ts).2.length = ts.length ∧
    (saveAll t ts).1.List none noFault
      = (some ((saveAll t ts).2.map (fun p => p.1)), none) ∧
    ((saveAll t ts).2.map (fun p => p.1)).length = ts.length ∧
    (saveAll t ts).2.map (fun p => (p.1.Title, p.1.Done))
      = ts.map (fun x => (x.Title, x.Done)) := by
  obtain ⟨h1, h2, h3, h4, h5⟩ := saveAll_spec t ts
  refine ⟨fun p hp => (h3 p hp).1, h4, h2, ?_, ?_, h5⟩
  · rw [List_noFault, h1, hempty]
    simp
  · simp [h2]

theorem saveAll_then_List_witness :
    TaskManager.fresh.rows = [] ∧
    (saveAll TaskManager.fresh [{ ID := 0, Title := "download drone", Done := false },
      { ID := 0, Title := "setup continuous integration", Done := false },
      { ID := 0, Title := "profit", Done := false }]).2.length = 3 ∧
    (saveAll TaskManager.fresh [{ ID := 0, Title := "download drone", Done := false },
      { ID := 0, Title := "setup continuous integration", Done := false },
      { ID := 0, Title := "profit", Done := false }]).2.map (fun p => p.1.ID) = [1, 2, 3] :=
  ⟨rfl,
    (saveAll_then_List TaskManager.fresh [{ ID := 0, Title := "download drone", Done := false },
      { ID := 0, Title := "setup continuous integration", Done := false },
      { ID := 0, Title := "profit", Done := false }] rfl).2.2.1,
    by decide⟩

/-! ### errorHandler -/

/-- C1. The handler `errorHandler(f)` does what `f` does and then: nothing
more when `f` returns nil; `http.Error` with status 400 and the wrapped
error's message when `f` returns a `badRequest`; `http.Error` with status 404
and the fixed text "task not found" when `f` returns a `notFound`; and for
every other error `http.Error` with status 500 and the text "oops", after
logging the error, so that two handlers failing with any two internal errors
are answered by the same call.  When `f` has written nothing itself, as the
five route handlers have not when they return an error, that call fixes the
status line. -/
theorem errorHandler_classifies (f : HandlerFunc) (r : Request) (tasks : TaskManager) :
    ((f r tasks).err = none →
      errorHandler f r tasks =
        { calls := (f r tasks).calls, logs := (f r tasks).logs, sql := (f r tasks).sql,
          tasks := (f r tasks).tasks, panicked := false }) ∧
    (∀ msg, (f r tasks).err = some (.badRequest (some msg)) →
      errorHandler f r tasks =
        { calls := (f r tasks).calls ++ [.httpError msg 400], logs := (f r tasks).logs,
          sql := (f r tasks).sql, tasks := (f r tasks).tasks, panicked := false } ∧
      ((f r tasks).calls = [] → statusOf (errorHandler f r tasks).calls = 400)) ∧
    (∀ inner, (f r tasks).err = some (.notFound inner) →
      errorHandler f r tasks =
        { calls := (f r tasks).calls ++ [.httpError (.lit "task not found") 404],
          logs := (f r tasks).logs, sql := (f r tasks).sql, tasks := (f r tasks).tasks,
          panicked := false } ∧
      ((f r tasks).calls = [] → statusOf (errorHandler f r tasks).calls = 404)) ∧
    (∀ text, (f r tasks).err = some (.other text) →
      errorHandler f r tasks =
        { calls := (f r tasks).calls ++ [.httpError (.lit "oops") 500],
          logs := (f r tasks).logs ++ [.error (.other text)], sql := (f r tasks).sql,
          tasks := (f r tasks).tasks, panicked := false } ∧
      ((f r tasks).calls = [] → statusOf (errorHandler f r tasks).calls = 500)) ∧
    (∀ (g : HandlerFunc) (r2 : Request) (tasks2 : TaskManager) (text text2 : ErrText),
      (f r tasks).err = some (.other text) → (g r2 tasks2).err = some (.other text2) →
      (errorHandler f r tasks).calls.getLast? = (errorHandler g r2 tasks2).calls.getLast? ∧
      (errorHandler f r tasks).calls.getLast? = some (.httpError (.lit "oops") 500)) := by
  refine ⟨?_, ?_, ?_, ?_, ?_⟩
  · intro h
    simp [errorHandler, h]
  · intro msg h
    refine ⟨by simp [errorHandler, h, StatusBadRequest], ?_⟩
    intro hc
    simp [errorHandler, h, hc, statusOf, StatusBadRequest]
  · intro inner h
    refine ⟨by simp [errorHandler, h, StatusNotFound], ?_⟩
    intro hc
    simp [errorHandler, h, hc, statusOf, StatusNotFound]
  · intro text h
    refine ⟨by simp [errorHandler, h, StatusInternalServerError], ?_⟩
    intro hc
    simp [errorHandler, h, hc, statusOf, StatusInternalServerError]
  · intro g r2 tasks2 text text2 h h2
    simp [errorHandler, h, h2, StatusInternalServerError]

theorem errorHandler_classifies_witness :
    (GetTask none { vars := [("id", "42")], body := .error (.lit "EOF") } TaskManager.fresh).err
      = some (.notFound none) ∧
    errorHandler (GetTask none) { vars := [("id", "42")], body := .error (.lit "EOF") }
        TaskManager.fresh =
      { calls := [.httpError (.lit "task not found") 404], logs := [.taskIs 42],
        sql := [.selectByID 42], tasks := TaskManager.fresh, panicked := false } :=
  ⟨by decide,
    ((errorHandler_classifies (GetTask none)
      { vars := [("id", "42")], body := .error (.lit "EOF") } TaskManager.fresh).2.2.1 none
      (by decide)).1⟩

/-! ### UpdateTask -/

theorem Find_err_of_absent (tasks : TaskManager) (fault : Fault) (id : Int)
    (habs : ∀ row ∈ tasks.rows, row.ID ≠ id) : ∃ e, (tasks.Find fault id).2 = some e := by
  have h := find_none_of_absent tasks.rows id habs
  cases fault with
  | some msg => exact ⟨_, rfl⟩
  | none => exact ⟨ErrNoRows, by simp [TaskManager.Find, h]⟩

theorem find_some_of_present (l : List Task) (id : Int) (hex : ∃ row ∈ l, row.ID = id) :
    ∃ x, l.find? (fun r => r.ID == id) = some x ∧ x ∈ l ∧ x.ID = id := by
  induction l with
  | nil => simp at hex
  | cons y ys ih =>
    by_cases hy : y.ID = id
    · exact ⟨y, find_cons_hit y ys id hy, List.mem_cons_self _ _, hy⟩
    · obtain ⟨row, hrow, hid⟩ := hex
      rcases List.mem_cons.mp hrow with h | h
      · exact absurd (h ▸ hid) hy
      · obtain ⟨x, hx, hmem, hxid⟩ := ih ⟨row, h, hid⟩
        exact ⟨x, by rw [find_cons_miss y ys id hy]; exact hx, List.mem_cons_of_mem _ hmem, hxid⟩

theorem find_unique (l : List Task) (id : Int) (row : Task)
    (hnd : (l.map (fun r => r.ID)).Nodup) (hrow : row ∈ l) (hid : row.ID = id) :
    l.find? (fun r => r.ID == id) = some row := by
  induction l with
  | nil => simp at hrow
  | cons y ys ih =>
    rw [List.map_cons, List.nodup_cons] at hnd
    rcases List.mem_cons.mp hrow with h | h
    · subst h
      exact find_cons_hit row ys id hid
    · have hy : y.ID ≠ id := by
        intro hc
        apply hnd.1
        rw [hc, ← hid]
        exact List.mem_map_of_mem _ h
      rw [find_cons_miss y ys id hy]
      exact ih hnd.2 h

theorem find_map_Update_hit (l : List Task) (task : Task)
    (hex : ∃ row ∈ l, row.ID = task.ID) :
    (l.map (fun r =>
      if r.ID == task.ID then ({ ID := r.ID, Title := task.Title, Done := task.Done } : Task)
      else r)).find? (fun r => r.ID == task.ID) = some task := by
  induction l with
  | nil => simp at hex
  | cons y ys ih =>
    rw [List.map_cons]
    by_cases hy : y.ID = task.ID
    · have hyt : (y.ID == task.ID) = true := by simp [hy]
      rw [if_pos hyt,
        find_cons_hit ({ ID := y.ID, Title := task.Title, Done := task.Done } : Task) _ task.ID hy,
        hy]
    · have hyt : ¬ (y.ID == task.ID) = true := by simpa using hy
      rw [if_neg hyt, find_cons_miss y _ task.ID hy]
      apply ih
      obtain ⟨row, hrow, hid⟩ := hex
      rcases List.mem_cons.mp hrow with h | h
      · exact absurd (h ▸ hid) hy
      · exact ⟨row, h, hid⟩

/-- C5. A PUT whose path id parses and whose body decodes to a task with
another ID: `UpdateTask` returns a `badRequest` wrapping "inconsistent task
IDs" before it sends any statement, so the reply is `http.Error` with status
400 and that text and the table is unchanged, whatever rows exist and
whatever the engine would have done. -/
theorem UpdateTask_inconsistent_IDs (findFault updateFault : Fault) (r : Request)
    (tasks : TaskManager) (id : Int) (t : Task)
    (hid : parseID r = (id, none)) (hbody : r.body = .ok t) (hne : t.ID ≠ id) :
    UpdateTask findFault updateFault r tasks =
      { err := some (.badRequest (some (.lit "inconsistent task IDs"))), calls := [],
        logs := [], sql := [], tasks := tasks } ∧
    errorHandler (UpdateTask findFault updateFault) r tasks =
      { calls := [.httpError (.lit "inconsistent task IDs") 400], logs := [], sql := [],
        tasks := tasks, panicked := false } ∧
    statusOf (errorHandler (UpdateTask findFault updateFault) r tasks).calls = 400 := by
  have h : UpdateTask findFault updateFault r tasks =
      { err := some (.badRequest (some (.lit "inconsistent task IDs"))), calls := [],
        logs := [], sql := [], tasks := tasks } := by
    simp [UpdateTask, hid, hbody, hne, wrapBadRequest, errorText]
  refine ⟨h, ?_, ?_⟩ <;> simp [errorHandler, h, StatusBadRequest, statusOf]

theorem UpdateTask_inconsistent_IDs_witness :
    parseID { vars := [("id", "2")], body := .ok { ID := 1, Title := "Learn Go", Done := true } }
      = (2, none) ∧
    statusOf (errorHandler (UpdateTask none none)
      { vars := [("id", "2")], body := .ok { ID := 1, Title := "Learn Go", Done := true } }
      (TaskManager.mk [{ ID := 1, Title := "a", Done := false },
        { ID := 2, Title := "b", Done := false }] 2)).calls = 400 :=
  ⟨by decide,
    (UpdateTask_inconsistent_IDs none none
      { vars := [("id", "2")], body := .ok { ID := 1, Title := "Learn Go", Done := true } }
      (TaskManager.mk [{ ID := 1, Title := "a", Done := false },
        { ID := 2, Title := "b", Done := false }] 2) 2
      { ID := 1, Title := "Learn Go", Done := true } (by decide) rfl (by decide)).2.2⟩

/-- C6. A PUT with a valid path id and a body whose ID equals it, when no row
has that id: `UpdateTask` returns a `notFound` after the `SELECT` alone, so
the reply is `http.Error` with status 404 and the text "task not found", no
`UPDATE` is sent and the table is unchanged. -/
theorem UpdateTask_not_found (findFault updateFault : Fault) (r : Request)
    (tasks : TaskManager) (id : Int) (t : Task)
    (hid : parseID r = (id, none)) (hbody : r.body = .ok t) (heq : t.ID = id)
    (habs : ∀ row ∈ tasks.rows, row.ID ≠ id) :
    UpdateTask findFault updateFault r tasks =
      { err := some (.notFound none), calls := [], logs := [], sql := [.selectByID id],
        tasks := tasks } ∧
    errorHandler (UpdateTask findFault updateFault) r tasks =
      { calls := [.httpError (.lit "task not found") 404], logs := [], sql := [.selectByID id],
        tasks := tasks, panicked := false } ∧
    statusOf (errorHandler (UpdateTask findFault updateFault) r tasks).calls = 404 := by
  obtain ⟨e, he⟩ := Find_err_of_absent tasks findFault id habs
  have h : UpdateTask findFault updateFault r tasks =
      { err := some (.notFound none), calls := [], logs := [], sql := [.selectByID id],
        tasks := tasks } := by
    simp [UpdateTask, hid, hbody, heq, he]
  refine ⟨h, ?_, ?_⟩ <;> simp [errorHandler, h, StatusNotFound, statusOf]

theorem UpdateTask_not_found_witness :
    parseID { vars := [("id", "7")], body := .ok { ID := 7, Title := "Learn Go", Done := true } }
      = (7, none) ∧
    (∀ row ∈ (TaskManager.mk [{ ID := 1, Title := "a", Done := false }] 1).rows, row.ID ≠ 7) ∧
    errorHandler (UpdateTask none none)
      { vars := [("id", "7")], body := .ok { ID := 7, Title := "Learn Go", Done := true } }
      (TaskManager.mk [{ ID := 1, Title := "a", Done := false }] 1) =
      { calls := [.httpError (.lit "task not found") 404], logs := [], sql := [.selectByID 7],
        tasks := TaskManager.mk [{ ID := 1, Title := "a", Done := false }] 1,
        panicked := false } :=
  ⟨by decide, by decide,
    (UpdateTask_not_found none none
      { vars := [("id", "7")], body := .ok { ID := 7, Title := "Learn Go", Done := true } }
      (TaskManager.mk [{ ID := 1, Title := "a", Done := false }] 1) 7
      { ID := 7, Title := "Learn Go", Done := true } (by decide) rfl rfl (by decide)).2.1⟩

/-- C10. A PUT with a valid path id, a body whose ID equals it and an
existing row of that id, the engine executing both statements: `UpdateTask`
returns nil and nothing is written, so the status is 200; afterwards every
row of that id carries the body's title and flag under its old ID, every
other row is as before, in the same place, the IDs in the table and the
counter are the same, and `Find` of the id returns the body's task. -/
theorem UpdateTask_replaces_row (r : Request) (tasks : TaskManager) (id : Int) (t : Task)
    (hid : parseID r = (id, none)) (hbody : r.body = .ok t) (heq : t.ID = id)
    (hex : ∃ row ∈ tasks.rows, row.ID = id) :
    (UpdateTask none none r tasks).err = none ∧
    (errorHandler (UpdateTask none none) r tasks).calls = [] ∧
    (errorHandler (UpdateTask none none) r tasks).panicked = false ∧
    statusOf (errorHandler (UpdateTask none none) r tasks).calls = 200 ∧
    (errorHandler (UpdateTask none none) r tasks).sql
      = [.selectByID id, .update t.Title t.Done id] ∧
    (errorHandler (UpdateTask none none) r tasks).tasks.rows
      = tasks.rows.map (fun row =>
          if row.ID = id then { ID := row.ID, Title := t.Title, Done := t.Done } else row) ∧
    (errorHandler (UpdateTask none none) r tasks).tasks.rows.map (fun row => row.ID)
      = tasks.rows.map (fun row => row.ID) ∧
    (errorHandler (UpdateTask none none) r tasks).tasks.seq = tasks.seq ∧
    (∀ row ∈ (errorHandler (UpdateTask none none) r tasks).tasks.rows, row.ID = id →
      row.Title = t.Title ∧ row.Done = t.Done) ∧
    (∀ row, row.ID ≠ id →
      (row ∈ (errorHandler (UpdateTask none none) r tasks).tasks.rows ↔ row ∈ tasks.rows)) ∧
    (errorHandler (UpdateTask none none) r tasks).tasks.Find none id = (t, none) := by
  obtain ⟨x, hx, _, _⟩ := find_some_of_present tasks.rows id hex
  have hfind : (tasks.Find none id).2 = none := by simp [TaskManager.Find, hx]
  have h : UpdateTask none none r tasks =
      { err := none, calls := [], logs := [],
        sql := [.selectByID id, .update t.Title t.Done id],
        tasks := (tasks.Update none t).1 } := by
    simp [UpdateTask, hid, hbody, heq, hfind, TaskManager.Update]
  have hs : errorHandler (UpdateTask none none) r tasks =
      { calls := [], logs := [], sql := [.selectByID id, .update t.Title t.Done id],
        tasks := (tasks.Update none t).1, panicked := false } := by
    simp [errorHandler, h]
  have hrows : (tasks.Update none t).1.rows
      = tasks.rows.map (fun row =>
          if row.ID = id then { ID := row.ID, Title := t.Title, Done := t.Done } else row) := by
    simp [TaskManager.Update, heq]
  rw [hs]
  refine ⟨by rw [h], rfl, rfl, rfl, rfl, hrows, ?_, rfl, ?_, ?_, ?_⟩
  · exact map_ID_Update tasks.rows t
  · intro row hrow hrid
    simp only [hrows] at hrow
    obtain ⟨y, _, hy⟩ := List.mem_map.mp hrow
    by_cases hc : y.ID = id
    · rw [if_pos hc] at hy
      subst hy
      exact ⟨rfl, rfl⟩
    · rw [if_neg hc] at hy
      subst hy
      exact absurd hrid hc
  · intro row hrid
    simp only [hrows]
    constructor
    · intro hrow
      obtain ⟨y, hymem, hy⟩ := List.mem_map.mp hrow
      by_cases hc : y.ID = id
      · rw [if_pos hc] at hy
        subst hy
        exact absurd hc hrid
      · rw [if_neg hc] at hy
        subst hy
        exact hymem
    · intro hrow
      exact List.mem_map.mpr ⟨row, hrow, by rw [if_neg hrid]⟩
  · have hf := find_map_Update_hit tasks.rows t (by rw [heq]; exact hex)
    have hrows2 : (tasks.Update none t).1.rows
        = tasks.rows.map (fun r =>
            if r.ID == t.ID then ({ ID := r.ID, Title := t.Title, Done := t.Done } : Task)
            else r) := rfl
    simp only [TaskManager.Find, hrows2, ← heq, hf]

theorem UpdateTask_replaces_row_witness :
    parseID { vars := [("id", "1")], body := .ok { ID := 1, Title := "Learn Go", Done := true } }
      = (1, none) ∧
    (∃ row ∈ (TaskManager.mk [{ ID := 1, Title := "a", Done := false },
      { ID := 2, Title := "b", Done := false }] 5).rows, row.ID = 1) ∧
    (errorHandler (UpdateTask none none)
      { vars := [("id", "1")], body := .ok { ID := 1, Title := "Learn Go", Done := true } }
      (TaskManager.mk [{ ID := 1, Title := "a", Done := false },
        { ID := 2, Title := "b", Done := false }] 5)).tasks.Find none 1
      = ({ ID := 1, Title := "Learn Go", Done := true }, none) :=
  ⟨by decide, by simp,
    (UpdateTask_replaces_row
      { vars := [("id", "1")], body := .ok { ID := 1, Title := "Learn Go", Done := true } }
      (TaskManager.mk [{ ID := 1, Title := "a", Done := false },
        { ID := 2, Title := "b", Done := false }] 5) 1
      { ID := 1, Title := "Learn Go", Done := true } (by decide) rfl rfl
      (by simp)).2.2.2.2.2.2.2.2.2.2⟩

/-! ### ParseInt -/

theorem le_digitsFrom (cs : List Char) (n : Nat) : n ≤ digitsFrom n cs := by
  induction cs generalizing n with
  | nil => simp [digitsFrom]
  | cons c cs ih =>
    have h := ih (n * 10 + (c.toNat - 48))
    simp only [digitsFrom, List.foldl_cons] at h ⊢
    omega

theorem parseUintLoop_digits (cs : List Char) (n : Nat) (hn : n ≤ 2 ^ 64 - 1)
    (hall : cs.all Char.isDigit = true) :
    parseUintLoop cs n =
      if digitsFrom n cs ≤ 2 ^ 64 - 1 then (digitsFrom n cs, none)
      else (2 ^ 64 - 1, some .outOfRange) := by
  induction cs generalizing n with
  | nil =>
    have h0 : digitsFrom n [] = n := rfl
    rw [h0, if_pos hn]
    rfl
  | cons c cs ih =>
    simp only [List.all_cons, Bool.and_eq_true] at hall
    have hge := le_digitsFrom cs (n * 10 + (c.toNat - 48))
    have hstep : digitsFrom n (c :: cs) = digitsFrom (n * 10 + (c.toNat - 48)) cs := rfl
    rw [hstep]
    simp only [parseUintLoop, hall.1, if_true]
    by_cases h1 : n ≥ (2 ^ 64 - 1) / 10 + 1
    · rw [if_pos h1, if_neg (by omega)]
    · rw [if_neg h1]
      by_cases h2 : n * 10 + (c.toNat - 48) > 2 ^ 64 - 1
      · rw [if_pos h2, if_neg (by omega)]
      · rw [if_neg h2]
        exact ih _ (by omega) hall.2

theorem parseUintLoop_nondigit (cs : List Char) (n : Nat)
    (hall : cs.all Char.isDigit = false) :
    parseUintLoop cs n = (0, some .invalid) ∨
      parseUintLoop cs n = (2 ^ 64 - 1, some .outOfRange) := by
  induction cs generalizing n with
  | nil => simp at hall
  | cons c cs ih =>
    by_cases hc : c.isDigit = true
    · have hrest : cs.all Char.isDigit = false := by
        simpa [List.all_cons, hc] using hall
      simp only [parseUintLoop, hc, if_true]
      by_cases h1 : n ≥ (2 ^ 64 - 1) / 10 + 1
      · rw [if_pos h1]
        exact Or.inr rfl
      · rw [if_neg h1]
        by_cases h2 : n * 10 + (c.toNat - 48) > 2 ^ 64 - 1
        · rw [if_pos h2]
          exact Or.inr rfl
        · rw [if_neg h2]
          exact ih _ hrest
    · left
      simp [parseUintLoop, hc]

theorem ParseUint_cases (ds : List Char) :
    (ds = [] ∧ ParseUint ds = (0, some .invalid)) ∨
    (ds ≠ [] ∧ ds.all Char.isDigit = true ∧ digitsFrom 0 ds ≤ 2 ^ 64 - 1 ∧
      ParseUint ds = (digitsFrom 0 ds, none)) ∨
    (ds ≠ [] ∧ ds.all Char.isDigit = true ∧ ¬ digitsFrom 0 ds ≤ 2 ^ 64 - 1 ∧
      ParseUint ds = (2 ^ 64 - 1, some .outOfRange)) ∨
    (ds ≠ [] ∧ ds.all Char.isDigit = false ∧
      (ParseUint ds = (0, some .invalid) ∨ ParseUint ds = (2 ^ 64 - 1, some .outOfRange))) := by
  cases ds with
  | nil => exact Or.inl ⟨rfl, rfl⟩
  | cons c cs =>
    have hP : ParseUint (c :: cs) = parseUintLoop (c :: cs) 0 := rfl
    have hne : c :: cs ≠ [] := by simp
    by_cases hall : (c :: cs).all Char.isDigit = true
    · have h := parseUintLoop_digits (c :: cs) 0 (by omega) hall
      by_cases hv : digitsFrom 0 (c :: cs) ≤ 2 ^ 64 - 1
      · rw [if_pos hv] at h
        exact Or.inr (Or.inl ⟨hne, hall, hv, by rw [hP, h]⟩)
      · rw [if_neg hv] at h
        exact Or.inr (Or.inr (Or.inl ⟨hne, hall, hv, by rw [hP, h]⟩))
    · have hall2 : (c :: cs).all Char.isDigit = false := by simpa using hall
      have h := parseUintLoop_nondigit (c :: cs) 0 hall2
      exact Or.inr (Or.inr (Or.inr ⟨hne, hall2, by rw [hP]; exact h⟩))

theorem finishInt_decimalValue (txt : String) (neg : Bool) (ds : List Char) :
    (∀ v, decimalValue neg ds = some v → finishInt txt neg (ParseUint ds) = (v, none)) ∧
    (decimalValue neg ds = none → (finishInt txt neg (ParseUint ds)).2 ≠ none) := by
  have hdec : decimalValue neg ds =
      if ds ≠ [] ∧ ds.all Char.isDigit = true then
        if neg then
          if digitsFrom 0 ds ≤ 2 ^ 63 then some (-(digitsFrom 0 ds : Int)) else none
        else
          if digitsFrom 0 ds < 2 ^ 63 then some (digitsFrom 0 ds : Int) else none
      else none := rfl
  have e63 : (2 : Nat) ^ 63 = 9223372036854775808 := by norm_num
  have e64 : (2 : Nat) ^ 64 - 1 = 18446744073709551615 := by norm_num
  rcases ParseUint_cases ds with ⟨h1, hu⟩ | ⟨h1, h2, h3, hu⟩ | ⟨h1, h2, h3, hu⟩ | ⟨h1, h2, hu⟩
  · rw [hu, hdec, if_neg (by simp [h1])]
    simp [finishInt]
  · rw [hu, hdec, if_pos ⟨h1, h2⟩]
    generalize digitsFrom 0 ds = V at *
    cases neg
    · by_cases hv : V < 2 ^ 63
      · have hv2 : ¬ V ≥ 2 ^ 63 := by omega
        rw [e63] at hv hv2
        simp [finishInt, hv, hv2]
      · have hv2 : V ≥ 2 ^ 63 := by omega
        rw [e63] at hv hv2
        simp [finishInt, hv, hv2]
    · by_cases hv : V ≤ 2 ^ 63
      · have hv2 : ¬ V > 2 ^ 63 := by omega
        rw [e63] at hv hv2
        simp [finishInt, hv, hv2]
      · have hv2 : V > 2 ^ 63 := by omega
        rw [e63] at hv hv2
        simp [finishInt, hv, hv2]
  · rw [hu, hdec, if_pos ⟨h1, h2⟩]
    generalize digitsFrom 0 ds = V at *
    cases neg
    · have hv : ¬ V < 9223372036854775808 := by omega
      have hv2 : 9223372036854775808 ≤ V := by omega
      simp [finishInt, hv, hv2]
    · have hv : ¬ V ≤ 9223372036854775808 := by omega
      have hv2 : 9223372036854775808 < V := by omega
      simp [finishInt, hv, hv2]
  · rw [hdec, if_neg (by simp [h2])]
    rcases hu with hu | hu
    · rw [hu]
      simp [finishInt]
    · rw [hu]
      cases neg <;> simp [finishInt]

theorem ParseInt_decimalInt64 (txt : String) :
    (∀ v, decimalInt64 txt = some v → ParseInt txt = (v, none)) ∧
    (decimalInt64 txt = none → (ParseInt txt).2 ≠ none) := by
  unfold ParseInt decimalInt64
  rcases txt.toList with _ | ⟨c, cs⟩
  · simp
  · have hd : (if c == '+' then cs else if c == '-' then cs else c :: cs)
        = (if c == '+' || c == '-' then cs else c :: cs) := by
      by_cases h1 : c = '+' <;> by_cases h2 : c = '-' <;> simp [h1, h2]
    simp only [hd]
    exact finishInt_decimalValue txt (c == '-') _

theorem finishInt_err_other (txt : String) (neg : Bool) (u : Nat × Option NumErrKind) :
    (finishInt txt neg u).2 = none ∨ ∃ text, (finishInt txt neg u).2 = some (.other text) := by
  unfold finishInt
  split
  · exact Or.inr ⟨_, rfl⟩
  · split
    · exact Or.inr ⟨_, rfl⟩
    · split
      · exact Or.inr ⟨_, rfl⟩
      · exact Or.inl rfl

theorem ParseInt_err_other (txt : String) :
    (ParseInt txt).2 = none ∨ ∃ text, (ParseInt txt).2 = some (.other text) := by
  unfold ParseInt
  split
  · exact Or.inr ⟨_, rfl⟩
  · exact finishInt_err_other _ _ _

theorem parseID_of_var (r : Request) (txt : String) (h : r.vars.lookup "id" = some txt) :
    parseID r = ParseInt txt := by
  simp [parseID, h]

/-! ### GetTask -/

theorem GetTask_tasks (fault : Fault) (r : Request) (tasks : TaskManager) :
    (GetTask fault r tasks).tasks = tasks := by
  unfold GetTask
  dsimp only
  split
  · rfl
  · split <;> rfl

theorem errorHandler_tasks (f : HandlerFunc) (r : Request) (tasks : TaskManager) :
    (errorHandler f r tasks).tasks = (f r tasks).tasks := by
  unfold errorHandler
  dsimp only
  split
  · rfl
  · split <;> rfl
  · rfl
  · rfl

/-- C7. For GET /task/{id}, the table is the same after `GetTask` as before
in every case.  If the id segment is not a base-10 integer of 64 bits (or the
route has no id) the status is 400 and no statement is sent.  If it is one
and no row has that id, the reply is `http.Error` with status 404 and the
text "task not found".  If it is one, rowids are unique, a row has that id
and the engine executes the query, the status is 200 and the body is the
encoding of that row. -/
theorem GetTask_responses (fault : Fault) (r : Request) (tasks : TaskManager) :
    (errorHandler (GetTask fault) r tasks).tasks = tasks ∧
    (r.vars.lookup "id" = none →
      statusOf (errorHandler (GetTask fault) r tasks).calls = 400) ∧
    (∀ txt, r.vars.lookup "id" = some txt → decimalInt64 txt = none →
      statusOf (errorHandler (GetTask fault) r tasks).calls = 400 ∧
      (errorHandler (GetTask fault) r tasks).sql = []) ∧
    (∀ txt id, r.vars.lookup "id" = some txt → decimalInt64 txt = some id →
      (∀ row ∈ tasks.rows, row.ID ≠ id) →
      (errorHandler (GetTask fault) r tasks).calls
        = [.httpError (.lit "task not found") 404] ∧
      statusOf (errorHandler (GetTask fault) r tasks).calls = 404) ∧
    (∀ txt id row, r.vars.lookup "id" = some txt → decimalInt64 txt = some id →
      tasks.WF → row ∈ tasks.rows → row.ID = id →
      (errorHandler (GetTask none) r tasks).calls = [.encodeTask row] ∧
      statusOf (errorHandler (GetTask none) r tasks).calls = 200) := by
  refine ⟨?_, ?_, ?_, ?_, ?_⟩
  · rw [errorHandler_tasks, GetTask_tasks]
  · intro hnone
    have hp : parseID r = (0, some (.other (.lit "task id not found"))) := by
      simp [parseID, hnone]
    simp [errorHandler, GetTask, hp, wrapBadRequest, errorText, statusOf, StatusBadRequest]
  · intro txt hvar hbad
    have hp := parseID_of_var r txt hvar
    have herr := (ParseInt_decimalInt64 txt).2 hbad
    rcases ParseInt_err_other txt with h | ⟨text, h⟩
    · exact absurd h herr
    · rw [← hp] at h
      simp [errorHandler, GetTask, h, wrapBadRequest, errorText, statusOf, StatusBadRequest]
  · intro txt id hvar hok habs
    have hp : parseID r = (id, none) := by
      rw [parseID_of_var r txt hvar]
      exact (ParseInt_decimalInt64 txt).1 id hok
    obtain ⟨e, he⟩ := Find_err_of_absent tasks fault id habs
    simp [errorHandler, GetTask, hp, he, statusOf, StatusNotFound]
  · intro txt id row hvar hok hwf hrow hid
    have hp : parseID r = (id, none) := by
      rw [parseID_of_var r txt hvar]
      exact (ParseInt_decimalInt64 txt).1 id hok
    have hfind := find_unique tasks.rows id row hwf.2.2 hrow hid
    have hF : tasks.Find none id = (row, none) := by
      simp [TaskManager.Find, hfind]
    simp [errorHandler, GetTask, hp, hF, statusOf, StatusOK]

theorem GetTask_responses_witness :
    (([("id", "42")] : List (String × String)).lookup "id" = some "42") ∧
    decimalInt64 "42" = some 42 ∧
    (∀ row ∈ (TaskManager.mk [{ ID := 1, Title := "Buy bread", Done := true }] 1).rows,
      row.ID ≠ 42) ∧
    (errorHandler (GetTask none) { vars := [("id", "42")], body := .error (.lit "EOF") }
      (TaskManager.mk [{ ID := 1, Title := "Buy bread", Done := true }] 1)).calls
        = [.httpError (.lit "task not found") 404] ∧
    (([("id", "1")] : List (String × String)).lookup "id" = some "1") ∧
    decimalInt64 "1" = some 1 ∧
    (TaskManager.mk [{ ID := 1, Title := "Buy bread", Done := true }] 1).WF ∧
    (errorHandler (GetTask none) { vars := [("id", "1")], body := .error (.lit "EOF") }
      (TaskManager.mk [{ ID := 1, Title := "Buy bread", Done := true }] 1)).calls
        = [.encodeTask { ID := 1, Title := "Buy bread", Done := true }] ∧
    (([("id", "4x")] : List (String × String)).lookup "id" = some "4x") ∧
    decimalInt64 "4x" = none ∧
    statusOf (errorHandler (GetTask none) { vars := [("id", "4x")], body := .error (.lit "EOF") }
      (TaskManager.mk [{ ID := 1, Title := "Buy bread", Done := true }] 1)).calls = 400 :=
  ⟨by decide, by decide, by decide,
    ((GetTask_responses none { vars := [("id", "42")], body := .error (.lit "EOF") }
      (TaskManager.mk [{ ID := 1, Title := "Buy bread", Done := true }] 1)).2.2.2.1
      "42" 42 (by decide) (by decide) (by decide)).1,
    by decide, by decide, by simp [TaskManager.WF],
    ((GetTask_responses none { vars := [("id", "1")], body := .error (.lit "EOF") }
      (TaskManager.mk [{ ID := 1, Title := "Buy bread", Done := true }] 1)).2.2.2.2
      "1" 1 { ID := 1, Title := "Buy bread", Done := true } (by decide) (by decide)
      (by simp [TaskManager.WF]) (by simp) rfl).1,
    by decide, by decide,
    ((GetTask_responses none { vars := [("id", "4x")], body := .error (.lit "EOF") }
      (TaskManager.mk [{ ID := 1, Title := "Buy bread", Done := true }] 1)).2.2.1
      "4x" (by decide) (by decide)).1⟩

/-! ### Database errors -/

/-- Where a handler returns the store's error as it is, a statement the
engine refuses is answered with status 500 and the text "oops": `NewTask`
(Save), `DeleteTask` (Delete) and the `Update` call of `UpdateTask`. -/
theorem database_error_500 (msg : String) (r : Request) (tasks : TaskManager) (id : Int)
    (t : Task) (hbody : r.body = .ok t) (hid : parseID r = (id, none)) :
    (errorHandler (NewTask (some msg)) r tasks).calls = [.httpError (.lit "oops") 500] ∧
    (errorHandler (DeleteTask (some msg)) r tasks).calls = [.httpError (.lit "oops") 500] ∧
    (t.ID = id → (∃ row ∈ tasks.rows, row.ID = id) →
      (errorHandler (UpdateTask none (some msg)) r tasks).calls
        = [.httpError (.lit "oops") 500]) := by
  refine ⟨?_, ?_, ?_⟩
  · simp [errorHandler, NewTask, hbody, TaskManager.Save, driverError,
      StatusInternalServerError]
  · simp [errorHandler, DeleteTask, hid, TaskManager.Delete, driverError,
      StatusInternalServerError]
  · intro heq hex
    obtain ⟨x, hx, _, _⟩ := find_some_of_present tasks.rows id hex
    have hfind : (tasks.Find none id).2 = none := by simp [TaskManager.Find, hx]
    simp [errorHandler, UpdateTask, hid, hbody, heq, hfind, TaskManager.Update, driverError,
      StatusInternalServerError]

/-- C8 (the code departs from it). When the engine refuses the statement with
"database is locked": `ListTasks` drops the error of `List` and answers 200
with the encoding of a nil slice; `GetTask` and `UpdateTask` take the error of
`Find` for a missing row and answer 404 "task not found", although the row
exists.  None of the three answers 500. -/
theorem database_error_not_500 :
    errorHandler (ListTasks (some "database is locked") noFault)
        { vars := [], body := .error (.lit "EOF") }
        (TaskManager.mk [{ ID := 1, Title := "Buy bread", Done := true }] 1) =
      { calls := [.encodeTasks none], logs := [], sql := [.selectAll],
        tasks := TaskManager.mk [{ ID := 1, Title := "Buy bread", Done := true }] 1,
        panicked := false } ∧
    statusOf (errorHandler (ListTasks (some "database is locked") noFault)
        { vars := [], body := .error (.lit "EOF") }
        (TaskManager.mk [{ ID := 1, Title := "Buy bread", Done := true }] 1)).calls = 200 ∧
    (errorHandler (GetTask (some "database is locked"))
        { vars := [("id", "1")], body := .error (.lit "EOF") }
        (TaskManager.mk [{ ID := 1, Title := "Buy bread", Done := true }] 1)).calls =
      [.httpError (.lit "task not found") 404] ∧
    (errorHandler (UpdateTask (some "database is locked") none)
        { vars := [("id", "1")], body := .ok { ID := 1, Title := "Learn Go", Done := true } }
        (TaskManager.mk [{ ID := 1, Title := "Buy bread", Done := true }] 1)).calls =
      [.httpError (.lit "task not found") 404] := by
  refine ⟨?_, ?_, ?_, ?_⟩ <;> decide
